import Mathlib

/-!
Verification development for the Concrete-vibe-calc dashboard
(`src/pages/index.js`): a shallow embedding of its on-chain yield-derivation
pipeline — ABI hex encoding/decoding, the historical block resolver, the
per-vault snapshot fetcher, the portfolio orchestrator, and the projection
engine — together with theorems settling the frozen claims about it.

Modelling conventions:
* JS `BigInt` values are `ℕ` (unbounded, as in the source's decode path).
* JS `Number` values that the claims treat in exact arithmetic are `ℚ`
  (every concrete JS number is rational); the APY formula needs a real
  exponent `365/7`, so share-price derivation lives in `ℝ` via `rpow`.
  Exact real arithmetic has no NaN, so the source's `isNaN` guard is
  modelled as always passing.
* Network effects are oracles: each `fetch`/RPC call's outcome is a field of
  an environment record, `Except String` mirroring resolve/reject with the
  captured error message.
* Hex payload strings are `Option (List (Fin 16))`: `none` is a falsy
  result, `some []` is the bare `"0x"`, otherwise the list holds the hex
  digits after the `0x` tag.
-/

namespace ConcreteYield

/-! ### Hex payloads and the ABI encoder/decoder -/

abbrev HexDigit := Fin 16

/-- A hex payload as returned by `eth_call`: `none` models a falsy result,
`some ds` the string `"0x"` followed by the digits `ds`. -/
abbrev HexPayload := Option (List HexDigit)

/-- Positional (Horner) parse of big-endian hex digits, as performed by
JS `BigInt("0x" + digits)`. -/
def hexValue (ds : List HexDigit) : ℕ :=
  ds.foldl (fun acc d => 16 * acc + d.val) 0

/-- The `decodeUint256` variant of the repository's appended copy of the
page (`BigInt(hex)`): an empty or absent payload decodes to zero, anything
else is parsed as an unsigned big-endian integer kept unbounded (`ℕ`).
This exact parse is what the snapshot-fetcher embedding below uses for its
decoded values; the app document's own lossy variant is
`decodeUint256App`. -/
def decodeUint256 : HexPayload → ℕ
  | none => 0
  | some [] => 0
  | some ds => hexValue ds

/-- Rounding of a nonnegative integer to the value of the nearest IEEE-754
double (53-bit significand, round-to-nearest, ties-to-even): exact below
`2^53`; above, the integer is split at `e = log2 n - 52` bits so the kept
quotient has 53 bits, and the dropped remainder decides the rounding. This
is the conversion JS `parseInt` performs when it returns a `Number` (no
overflow below `2^1024`, far above the 256-bit range). Written without
local bindings so the arithmetic rewrites cleanly. -/
def float64Round (n : ℕ) : ℕ :=
  if n < 2 ^ 53 then n
  else
    (if n % 2 ^ (Nat.log2 n - 52) * 2 > 2 ^ (Nat.log2 n - 52)
        ∨ (n % 2 ^ (Nat.log2 n - 52) * 2 = 2 ^ (Nat.log2 n - 52)
            ∧ n / 2 ^ (Nat.log2 n - 52) % 2 = 1)
     then n / 2 ^ (Nat.log2 n - 52) + 1
     else n / 2 ^ (Nat.log2 n - 52)) * 2 ^ (Nat.log2 n - 52)

/-- `decodeUint256` as the app document defines it (line 73):
`parseInt(hex, 16)` — the hex digits are parsed and the result is
immediately a float64 `Number`, so values above `2^53` lose their low
bits. Empty/absent payloads still decode to zero. -/
def decodeUint256App : HexPayload → ℕ
  | none => 0
  | some [] => 0
  | some ds => float64Round (hexValue ds)

/-- Specification-side meaning of a big-endian digit string: the usual
positional value `Σ dᵢ · 16^(n-1-i)`. Used to state that the source's
parse is exactly the big-endian value. -/
def bigEndianValue : List HexDigit → ℕ
  | [] => 0
  | d :: ds => d.val * 16 ^ ds.length + bigEndianValue ds

/-- Big-endian base-16 digit string of `n`, as produced by JS
`BigInt.toString(16)` (a single `"0"` for zero, no leading zeros
otherwise). -/
def toHexDigits (n : ℕ) : List HexDigit :=
  if h : n < 16 then [⟨n, h⟩]
  else toHexDigits (n / 16) ++ [⟨n % 16, Nat.mod_lt _ (by norm_num)⟩]
termination_by n
decreasing_by
  exact Nat.div_lt_self (by omega) (by norm_num)

/-- `padStart(w, "0")`: left-pad a digit string with zeros up to width `w`
(no change when already at least that wide). -/
def leftPad (w : ℕ) (ds : List HexDigit) : List HexDigit :=
  List.replicate (w - ds.length) 0 ++ ds

/-- A 32-byte (64 hex digit) big-endian word, as built by
`toString(16).padStart(64, "0")` in `encodeConvertToAssets`. -/
def toHexWord (n : ℕ) : List HexDigit :=
  leftPad 64 (toHexDigits n)

/-- 4-byte selector `0x01e1d114` of `totalAssets()`. -/
def SELtotalAssets : List HexDigit := [0, 1, 14, 1, 13, 1, 1, 4]

/-- 4-byte selector `0x18160ddd` of `totalSupply()`. -/
def SELtotalSupply : List HexDigit := [1, 8, 1, 6, 0, 13, 13, 13]

/-- 4-byte selector `0x07a2d13a` of `convertToAssets(uint256)`. -/
def SELconvertToAssets : List HexDigit := [0, 7, 10, 2, 13, 1, 3, 10]

/-- `encodeConvertToAssets` from the app document (lines 69-72): build the
string `"1"` followed by `decimals` zeros, run it through
`parseFloat`/`Math.floor` — i.e. the float64 rounding of the integer
`10^decimals` (`Math.floor` is a no-op on that integer-valued double) —
then render base-16 and left-pad to a 32-byte big-endian word after the
`convertToAssets` selector. -/
def encodeConvertToAssets (decimals : ℕ) : List HexDigit :=
  SELconvertToAssets ++ leftPad 64 (toHexDigits (float64Round (10 ^ decimals)))

/-! ### Vault descriptors and snapshots -/

/-- A static vault descriptor from `VAULT_CONFIGS`. In JS the
`institutional` / `pending` flags are optional and absent means falsy, so
they are `Bool` with default `false`. -/
structure VaultConfig where
  id : String
  address : String
  displayName : String
  assetSymbol : String
  assetDecimals : ℕ
  risk : String
  borderColor : String
  subtitle : String
  description : String
  institutional : Bool := false
  pending : Bool := false
deriving Repr, DecidableEq

def usdtConfig : VaultConfig :=
  { id := "usdt", address := "0x0E609b710da5e0AA476224b6c0e5445cCc21251E",
    displayName := "USDT", assetSymbol := "USDT", assetDecimals := 6,
    risk := "LOW", borderColor := "#00FF41", subtitle := "Stablecoin Yield",
    description := "USDT-denominated vault. Stable returns via automated DeFi strategies." }

def wewethConfig : VaultConfig :=
  { id := "weweth", address := "0xB9DC54c8261745CB97070CeFBE3D3d815aee8f20",
    displayName := "WeWETH", assetSymbol := "WETH", assetDecimals := 18,
    risk := "MED", borderColor := "#FFB800", subtitle := "Wrapped ETH Yield",
    description := "ETH-denominated. Assets held by regulated custodian (BitGo). NAV updated daily on-chain by automated accounting. $400M+ TVL.",
    institutional := true }

def wbtcConfig : VaultConfig :=
  { id := "wbtc", address := "0xacce65B9dB4810125adDEa9797BaAaaaD2B73788",
    displayName := "WBTC", assetSymbol := "WBTC", assetDecimals := 8,
    risk := "MED", borderColor := "#FFB800", subtitle := "Bitcoin Yield",
    description := "BTC-denominated. Yield on wrapped BTC via DeFi protocols.",
    pending := true }

def frxusdConfig : VaultConfig :=
  { id := "frxusd", address := "0xCF9ceAcf5c7d6D2FE6e8650D81FbE4240c72443f",
    displayName := "frxUSD", assetSymbol := "frxUSD", assetDecimals := 18,
    risk := "LOW", borderColor := "#00FF41", subtitle := "Frax Stablecoin Yield",
    description := "frxUSD-denominated. Frax ecosystem yield strategies." }

/-- The source's `VAULT_CONFIGS` list. -/
def VAULT_CONFIGS : List VaultConfig :=
  [usdtConfig, wewethConfig, wbtcConfig, frxusdConfig]

/-- A `VaultSnapshot`: the JS object spreads the descriptor and adds the
derived fields; absent fields of a degraded snapshot are `none`. -/
structure VaultSnapshot where
  config : VaultConfig
  totalAssets : Option ℕ := none
  totalSupply : Option ℕ := none
  pricePerShare : Option ℚ := none
  tvlRaw : Option ℚ := none
  tvl : Option String := none
  apy : Option ℝ := none
  live : Bool := false
  fetchedAt : Option ℕ := none
  fetchError : Option String := none

/-! ### Display formatting (TVL strings) -/

/-- JS `Math.round`: round half toward positive infinity. -/
def jsRound (q : ℚ) : ℤ := ⌊q + 1 / 2⌋

/-- `Number.prototype.toFixed(d)` on an exact rational: nearest multiple of
`10^(-d)`, ties toward the larger candidate, rendered with `d` fraction
digits. -/
def qToFixed (q : ℚ) (d : ℕ) : String :=
  let scaled : ℤ := ⌊q * 10 ^ d + 1 / 2⌋
  let m := scaled.natAbs
  let ip := m / 10 ^ d
  let fp := m % 10 ^ d
  let fracStr := toString fp
  let frac := String.mk (List.replicate (d - fracStr.length) '0') ++ fracStr
  (if scaled < 0 then "-" else "") ++ toString ip ++
    (if d = 0 then "" else "." ++ frac)

/-- `formatAssetAmount` from the source: unit suffixes at the thousand and
million thresholds, two decimals condensed, four decimals raw. -/
def formatAssetAmount (n : ℚ) (symbol : String) : String :=
  if n ≥ 1000000 then qToFixed (n / 1000000) 2 ++ "M " ++ symbol
  else if n ≥ 1000 then qToFixed (n / 1000) 2 ++ "K " ++ symbol
  else qToFixed n 4 ++ " " ++ symbol

/-! ### Projection engine -/

/-- `calcYield` from the source. The JS guard is `if (!apyPct) return 0`,
which fires exactly on a null/absent or zero rate: `none` models
null/undefined and `some 0` models `0`. Days are the (integer) horizon. -/
def calcYield (principal : ℚ) (apyPct : Option ℚ) (days : ℕ) : ℚ :=
  match apyPct with
  | none => 0
  | some a => if a = 0 then 0 else principal * ((1 + a / 100 / 365) ^ days - 1)

/-- `calcTotal` from the source, with the same falsy guard returning the
principal unchanged. -/
def calcTotal (principal : ℚ) (apyPct : Option ℚ) (days : ℕ) : ℚ :=
  match apyPct with
  | none => principal
  | some a => if a = 0 then principal else principal * (1 + a / 100 / 365) ^ days

/-! ### APY derivation -/

/-- The raw 7-day-extrapolated APY formula applied to two decoded share
prices: `((priceNow / price7) ^ (365/7) - 1) * 100`, computed after
converting the unbounded integers to (real) numbers. -/
noncomputable def apyFormula (priceNow price7 : ℕ) : ℝ :=
  (((priceNow : ℝ) / (price7 : ℝ)) ^ ((365 : ℝ) / 7) - 1) * 100

open Classical in
/-- The guarded APY derivation from `fetchSingleVault`: both prices must be
strictly positive and the computed value must lie in `[0, 50000]`,
otherwise the result is null. In exact real arithmetic the source's
`isNaN` test can never fire, so it is modelled as always passing. -/
noncomputable def deriveApy (priceNow price7 : ℕ) : Option ℝ :=
  if 0 < price7 ∧ 0 < priceNow then
    if 0 ≤ apyFormula priceNow price7 ∧ apyFormula priceNow price7 ≤ 50000 then
      some (apyFormula priceNow price7)
    else none
  else none

/-! ### Historical block resolver -/

/-- Parsed body of the block-explorer response: `status` string and the
block number carried in `result`. -/
structure EtherscanResp where
  status : String
  result : ℕ
deriving Repr, DecidableEq

/-- Oracle for `getBlockDaysAgo`: the primary explorer lookup either
delivers a parsed response or throws inside the `try` (fetch/parse
failure), and the `eth_blockNumber` RPC call either delivers the current
block's hex payload or rejects. -/
structure BlockEnv where
  primary : Except String EtherscanResp
  rpcBlockNumber : Except String (List HexDigit)

/-- Fallback branch of `getBlockDaysAgo`: read the current block over RPC
and subtract `round(days*86400/12)` blocks, floored at zero. The RPC
rejection propagates — this read is outside the `try`. -/
def fallbackBlock (days : ℕ) (env : BlockEnv) : Except String ℤ :=
  match env.rpcBlockNumber with
  | .error e => .error e
  | .ok curHex =>
      .ok (max 0 ((hexValue curHex : ℤ) - jsRound ((days * 86400 : ℚ) / 12)))

/-- `getBlockDaysAgo` from the source: return the explorer's block when the
lookup succeeded with `status === "1"`; on any thrown fetch/parse failure
or a non-success status, fall through to the RPC estimate. (The source
renders the block as a hex tag; the model keeps the numeric value.) -/
def getBlockDaysAgo (days : ℕ) (env : BlockEnv) : Except String ℤ :=
  match env.primary with
  | .ok resp =>
      if resp.status = "1" then .ok (resp.result : ℤ)
      else fallbackBlock days env
  | .error _ => fallbackBlock days env

/-! ### Vault snapshot fetcher -/

/-- Oracle for one `fetchSingleVault` run: the three parallel current-state
`eth_call`s, the block-resolver environment, the historical
`convertToAssets` call, and the `Date.now()` stamp. -/
structure FetchEnv where
  totalAssetsRes : Except String HexPayload
  totalSupplyRes : Except String HexPayload
  priceNowRes : Except String HexPayload
  blockEnv : BlockEnv
  price7Res : Except String HexPayload
  now : ℕ

/-- Boolean success test for an `Except` outcome (JS: the promise
fulfilled). -/
def exOk {ε α : Type} : Except ε α → Bool
  | .ok _ => true
  | .error _ => false

/-- The body of the `try` block deriving the historical share price:
resolve the 7-days-ago block, read `convertToAssets` there, decode. Any
rejection along the way surfaces as the `Except` error the source's
`catch` swallows. -/
def apySub (env : FetchEnv) : Except String ℕ :=
  match getBlockDaysAgo 7 env.blockEnv with
  | .error e => .error e
  | .ok _block7d =>
      match env.price7Res with
      | .error e => .error e
      | .ok p7Hex => .ok (decodeUint256 p7Hex)

/-- `fetchSingleVault` from the source: `Promise.all` over the three
current-state calls (any rejection rejects the whole snapshot), then the
APY derivation inside its own `try`/`catch` (a failure there only leaves
`apy` null), then the snapshot object. Note that the descriptor's
`institutional` / `pending` flags are never consulted. -/
noncomputable def fetchSingleVault (config : VaultConfig) (env : FetchEnv) :
    Except String VaultSnapshot :=
  match env.totalAssetsRes, env.totalSupplyRes, env.priceNowRes with
  | .error e, _, _ => .error e
  | .ok _, .error e, _ => .error e
  | .ok _, .ok _, .error e => .error e
  | .ok aHex, .ok sHex, .ok pHex =>
      let totalAssets := decodeUint256 aHex
      let totalSupply := decodeUint256 sHex
      let priceNow := decodeUint256 pHex
      let apy : Option ℝ :=
        match apySub env with
        | .ok price7 => deriveApy priceNow price7
        | .error _ => none
      let tvlRaw : ℚ := (totalAssets : ℚ) / 10 ^ config.assetDecimals
      .ok { config := config,
            totalAssets := some totalAssets,
            totalSupply := some totalSupply,
            pricePerShare := some ((priceNow : ℚ) / 10 ^ config.assetDecimals),
            tvlRaw := some tvlRaw,
            tvl := some (formatAssetAmount tvlRaw config.assetSymbol),
            apy := apy,
            live := true,
            fetchedAt := some env.now,
            fetchError := none }

/-! ### Portfolio fetch orchestrator -/

/-- The degraded snapshot synthesized for a rejected vault fetch
(index.js line 156): the original descriptor with `apy: null`,
`tvl: "Fetch failed"` and `live: false`. The rejection message is only
logged to the console — the app attaches no `fetchError` field. -/
def degradedSnapshot (config : VaultConfig) : VaultSnapshot :=
  { config := config, totalAssets := none, totalSupply := none,
    pricePerShare := none, tvlRaw := none, tvl := some "Fetch failed",
    apy := none, live := false, fetchedAt := none, fetchError := none }

/-- Per-vault settlement in `fetchAll`: a fulfilled outcome passes through,
a rejected one is replaced by the degraded snapshot (its message is
discarded after logging). -/
def settleVault (config : VaultConfig) : Except String VaultSnapshot → VaultSnapshot
  | .ok v => v
  | .error _ => degradedSnapshot config

/-- Number of rejected outcomes in a settled batch
(`results.filter(r => r.status === "rejected").length`). -/
def rejectedCount (outcomes : List (Except String VaultSnapshot)) : ℕ :=
  (outcomes.filter (fun r => !exOk r)).length

/-- The batch error classification of `fetchAll`, made explicit: every
vault failed, some (but not all) failed, or none failed. -/
inductive OutageState where
  | allFailed : OutageState
  | someFailed : ℕ → OutageState
  | healthy : OutageState
deriving Repr, DecidableEq

/-- The source's branch structure: `failCount === N` → total outage,
`failCount > 0` → partial outage with the count, otherwise no error. -/
def classifyOutage (n f : ℕ) : OutageState :=
  if f = n then .allFailed
  else if 0 < f then .someFailed f
  else .healthy

/-- The user-facing error string `setError` receives for each state
(index.js lines 159-160). -/
def outageMessage : OutageState → Option String
  | .allFailed => some "All vault fetches failed. Check your RPC URL."
  | .someFailed f => some (toString f ++ " vault(s) could not be reached.")
  | .healthy => none

/-- The aggregation step of `fetchAll`, given the settled per-vault
outcomes: the index-aligned snapshot list (degrading rejections) and the
reported error state. -/
def fetchAllAggregate (configs : List VaultConfig)
    (outcomes : List (Except String VaultSnapshot)) :
    List VaultSnapshot × Option String :=
  (List.zipWith settleVault configs outcomes,
   outageMessage (classifyOutage configs.length (rejectedCount outcomes)))

/-- Model of `Promise.allSettled`'s collection discipline: the tasks settle
in an arbitrary completion order; each settled outcome is stored at the
task's original index in a result array created up front. -/
def allSettledInOrder (n : ℕ) (results : ℕ → Except String VaultSnapshot)
    (order : List ℕ) : List (Option (Except String VaultSnapshot)) :=
  order.foldl (fun acc i => acc.set i (some (results i))) (List.replicate n none)

/-- `fetchAll` with the completion order made explicit: collect the settled
outcomes (every slot is filled once the order covers all indices — the
`getD` default is unreachable then) and aggregate as usual. -/
def fetchAllOrdered (configs : List VaultConfig)
    (results : ℕ → Except String VaultSnapshot) (order : List ℕ) :
    List VaultSnapshot :=
  (fetchAllAggregate configs
    ((allSettledInOrder configs.length results order).map
      (fun o => o.getD (.error "")))).1

/-- Replace only the `institutional` / `pending` flags of a descriptor
(used to state that `fetchSingleVault` never consults them). -/
def setFlags (c : VaultConfig) (inst pend : Bool) : VaultConfig :=
  { c with institutional := inst, pending := pend }

/-- The primary block lookup did not deliver a usable block: either the
fetch/parse threw, or the response status differs from `"1"`. -/
def primaryUnavailable (env : BlockEnv) : Prop :=
  match env.primary with
  | .ok r => r.status ≠ "1"
  | .error _ => True

/-- A fully successful fetch environment: every call resolves, all decoded
values are 1, the explorer lookup succeeds. -/
def allOkEnv : FetchEnv :=
  { totalAssetsRes := .ok (some [1]), totalSupplyRes := .ok (some [1]),
    priceNowRes := .ok (some [1]),
    blockEnv := { primary := .ok { status := "1", result := 100 },
                  rpcBlockNumber := .ok [1] },
    price7Res := .ok (some [1]), now := 0 }

/-- An environment where the three current-state calls succeed but the APY
derivation fails: both the explorer lookup and the `eth_blockNumber`
fallback reject. -/
def apyFailEnv : FetchEnv :=
  { totalAssetsRes := .ok (some [1]), totalSupplyRes := .ok (some [1]),
    priceNowRes := .ok (some [1]),
    blockEnv := { primary := .error "explorer down",
                  rpcBlockNumber := .error "rpc down" },
    price7Res := .ok (some [1]), now := 0 }

/-! ### Lemmas about hex encoding and decoding -/

theorem foldl_hex (ds : List HexDigit) :
    ∀ acc : ℕ, ds.foldl (fun a d => 16 * a + d.val) acc
      = acc * 16 ^ ds.length + bigEndianValue ds := by
  induction ds with
  | nil => intro acc; simp [bigEndianValue]
  | cons d tl ih =>
      intro acc
      rw [List.foldl_cons, ih]
      simp only [bigEndianValue, List.length_cons]
      ring

theorem hexValue_eq_bigEndianValue (ds : List HexDigit) :
    hexValue ds = bigEndianValue ds := by
  unfold hexValue
  rw [foldl_hex]
  simp

theorem bigEndianValue_append (xs ys : List HexDigit) :
    bigEndianValue (xs ++ ys) = bigEndianValue xs * 16 ^ ys.length + bigEndianValue ys := by
  induction xs with
  | nil => simp [bigEndianValue]
  | cons d tl ih =>
      rw [List.cons_append]
      simp only [bigEndianValue]
      rw [ih, List.length_append, pow_add]
      ring

theorem bigEndianValue_toHexDigits (n : ℕ) :
    bigEndianValue (toHexDigits n) = n := by
  induction n using Nat.strong_induction_on with
  | _ n ih =>
      rw [toHexDigits]
      by_cases h : n < 16
      · simp [h, bigEndianValue]
      · rw [dif_neg h, bigEndianValue_append, ih (n / 16) (Nat.div_lt_self (by omega) (by norm_num))]
        simp [bigEndianValue]
        omega

theorem bigEndianValue_leftPad (w : ℕ) (ds : List HexDigit) :
    bigEndianValue (leftPad w ds) = bigEndianValue ds := by
  unfold leftPad
  rw [bigEndianValue_append]
  have hrep : ∀ k : ℕ, bigEndianValue (List.replicate k (0 : HexDigit)) = 0 := by
    intro k
    induction k with
    | zero => rfl
    | succ m ihm => simp [List.replicate_succ, bigEndianValue, ihm]
  rw [hrep]
  simp

theorem toHexDigits_ne_nil (n : ℕ) : toHexDigits n ≠ [] := by
  rw [toHexDigits]
  by_cases h : n < 16
  · simp [h]
  · rw [dif_neg h]
    simp

theorem decodeUint256_some (ds : List HexDigit) :
    decodeUint256 (some ds) = hexValue ds := by
  cases ds <;> rfl

theorem decodeUint256_toHexWord (n : ℕ) :
    decodeUint256 (some (toHexWord n)) = n := by
  rw [decodeUint256_some, hexValue_eq_bigEndianValue]
  unfold toHexWord
  rw [bigEndianValue_leftPad, bigEndianValue_toHexDigits]

theorem toHexDigits_length_le (n k : ℕ) (hk : 0 < k) (hn : n < 16 ^ k) :
    (toHexDigits n).length ≤ k := by
  induction n using Nat.strong_induction_on generalizing k with
  | _ n ih =>
      rw [toHexDigits]
      by_cases h : n < 16
      · rw [dif_pos h]
        simpa using hk
      · rw [dif_neg h]
        have hk2 : 2 ≤ k := by
          by_contra hc
          interval_cases k <;> omega
        have hdiv : n / 16 < 16 ^ (k - 1) := by
          rw [Nat.div_lt_iff_lt_mul (by norm_num)]
          calc n < 16 ^ k := hn
          _ = 16 ^ (k - 1) * 16 := by
                rw [← pow_succ]
                congr 1
                omega
        have := ih (n / 16) (Nat.div_lt_self (by omega) (by norm_num)) (k - 1) (by omega) hdiv
        simp only [List.length_append, List.length_cons, List.length_nil]
        omega

theorem toHexWord_length (n : ℕ) (hn : n < 16 ^ 64) :
    (toHexWord n).length = 64 := by
  unfold toHexWord leftPad
  have := toHexDigits_length_le n 64 (by norm_num) hn
  simp only [List.length_append, List.length_replicate]
  omega

theorem toHexWord_ne_nil (n : ℕ) : toHexWord n ≠ [] := by
  unfold toHexWord leftPad
  intro h
  rcases List.append_eq_nil.mp h with ⟨-, h2⟩
  exact toHexDigits_ne_nil n h2

theorem hexValue_toHexWord (n : ℕ) : hexValue (toHexWord n) = n := by
  rw [hexValue_eq_bigEndianValue]
  unfold toHexWord
  rw [bigEndianValue_leftPad, bigEndianValue_toHexDigits]

theorem decodeUint256App_some (ds : List HexDigit) (h : ds ≠ []) :
    decodeUint256App (some ds) = float64Round (hexValue ds) := by
  cases ds with
  | nil => exact absurd rfl h
  | cons d tl => rfl

theorem float64Round_small (n : ℕ) (h : n < 2 ^ 53) : float64Round n = n := by
  unfold float64Round
  rw [if_pos h]

/-- The double rounding drops the low bit of `2^57 + 1`: the kept 53-bit
quotient is `2^52` with remainder 1 out of `2^5`, which rounds down. -/
theorem float64Round_pow57succ : float64Round (2 ^ 57 + 1) = 2 ^ 57 := by
  unfold float64Round
  rw [if_neg (by norm_num)]
  have hlog : Nat.log2 (2 ^ 57 + 1) = 57 := by
    rw [Nat.log2_eq_log_two]
    exact Nat.log_eq_of_pow_le_of_lt_pow (by norm_num) (by norm_num)
  rw [hlog]
  norm_num

/-- `10^18` is exactly representable as a double (`10^18 = 2^18 · 5^18`
has a 60-bit value whose dropped 7 low bits are all zero). -/
theorem float64Round_1e18 : float64Round (10 ^ 18) = 10 ^ 18 := by
  unfold float64Round
  rw [if_neg (by norm_num)]
  have hlog : Nat.log2 (10 ^ 18) = 59 := by
    rw [Nat.log2_eq_log_two]
    exact Nat.log_eq_of_pow_le_of_lt_pow (by norm_num) (by norm_num)
  rw [hlog]
  norm_num

/-- C3: the app's `decodeUint256` (`parseInt(hex, 16)`, a float64) loses
bits, contrary to the claim and to the spec's unbounded-integer invariant
(which the repository's own `BigInt` variant of the same function honors):
the 15-digit payload `0x200000000000001` encodes `2^57 + 1`, but the
decoder returns the rounded double value `2^57`. -/
theorem decodeUint256App_lossy :
    bigEndianValue [2, 0, 0, 0, 0, 0, 0, 0, 0, 0, 0, 0, 0, 0, 1] = 2 ^ 57 + 1
    ∧ decodeUint256App (some [2, 0, 0, 0, 0, 0, 0, 0, 0, 0, 0, 0, 0, 0, 1]) = 2 ^ 57
    ∧ (2 ^ 57 : ℕ) ≠ 2 ^ 57 + 1 := by
  have hv : hexValue [2, 0, 0, 0, 0, 0, 0, 0, 0, 0, 0, 0, 0, 0, 1] = 2 ^ 57 + 1 := by
    decide
  refine ⟨?_, ?_, by norm_num⟩
  · rw [← hexValue_eq_bigEndianValue]
    exact hv
  · rw [decodeUint256App_some _ (by simp), hv, float64Round_pow57succ]

/-- Counterexample to C9 as stated: the round-trip through the app's
`parseInt`-based decoder fails above `2^53` — the padded word of
`2^57 + 1` (a value well below `2^256`) decodes back to `2^57`, not to
itself. -/
theorem encode_decode_roundTrip_cex :
    (2 ^ 57 + 1 : ℕ) < 2 ^ 256
    ∧ decodeUint256App (some (toHexWord (2 ^ 57 + 1))) = 2 ^ 57
    ∧ (2 ^ 57 : ℕ) ≠ 2 ^ 57 + 1 := by
  refine ⟨by norm_num, ?_, by norm_num⟩
  rw [decodeUint256App_some _ (toHexWord_ne_nil _), hexValue_toHexWord,
    float64Round_pow57succ]

/-- C9 amended: for each configured decimals value the float64 detour of
`parseFloat`/`Math.floor` is exact (these powers of ten are representable
doubles), so `encodeConvertToAssets` is the selector followed by exactly
`10^decimals` left-padded to a 32-byte big-endian word; and decoding a
synthetic `uint256` word with the app's `parseInt`-based decoder returns
the encoded integer exactly for every integer in the float64-exact range
(below `2^53`) — but not beyond it in general. -/
theorem encodeConvertToAssets_spec :
    (∀ d : ℕ, d ∈ ([0, 6, 8, 18] : List ℕ) →
        float64Round (10 ^ d) = 10 ^ d
        ∧ encodeConvertToAssets d = SELconvertToAssets ++ leftPad 64 (toHexDigits (10 ^ d))
        ∧ (encodeConvertToAssets d).take 8 = SELconvertToAssets
        ∧ ((encodeConvertToAssets d).drop 8).length = 64
        ∧ decodeUint256App (some ((encodeConvertToAssets d).drop 8)) = 10 ^ d)
    ∧ (∀ n : ℕ, n < 2 ^ 53 → decodeUint256App (some (toHexWord n)) = n) := by
  constructor
  · intro d hd
    have hfr : float64Round (10 ^ d) = 10 ^ d := by
      fin_cases hd
      · exact float64Round_small _ (by norm_num)
      · exact float64Round_small _ (by norm_num)
      · exact float64Round_small _ (by norm_num)
      · exact float64Round_1e18
    have hsel : SELconvertToAssets.length = 8 := rfl
    have henc : encodeConvertToAssets d
        = SELconvertToAssets ++ leftPad 64 (toHexDigits (10 ^ d)) := by
      unfold encodeConvertToAssets
      rw [hfr]
    have hdrop : (encodeConvertToAssets d).drop 8 = toHexWord (10 ^ d) := by
      rw [henc, ← hsel, List.drop_left]
      rfl
    have hbound : 10 ^ d < 16 ^ 64 := by
      fin_cases hd <;> norm_num
    refine ⟨hfr, henc, ?_, ?_, ?_⟩
    · rw [henc, ← hsel, List.take_left]
    · rw [hdrop, toHexWord_length _ hbound]
    · rw [hdrop, decodeUint256App_some _ (toHexWord_ne_nil _), hexValue_toHexWord, hfr]
  · intro n hn
    rw [decodeUint256App_some _ (toHexWord_ne_nil _), hexValue_toHexWord,
      float64Round_small n hn]

/-- Witness for C9 (amended) at `decimals = 18` and the synthetic
integer 5. -/
theorem encodeConvertToAssets_spec_witness :
    decodeUint256App (some ((encodeConvertToAssets 18).drop 8)) = 10 ^ 18
    ∧ decodeUint256App (some (toHexWord 5)) = 5 :=
  ⟨(encodeConvertToAssets_spec.1 18 (by norm_num)).2.2.2.2,
   encodeConvertToAssets_spec.2 5 (by norm_num)⟩

/-! ### APY derivation: claims C2 -/

theorem apyFormula_one_one : apyFormula 1 1 = 0 := by
  unfold apyFormula
  norm_num [Real.one_rpow]

/-- C2: for decoded share prices, the derived APY is the raw formula value
whenever both prices are strictly positive and that value lies in
`[0, 50000]`, and null (not a clamped value) whenever it falls outside the
band; a zero historical price yields null regardless of the current price.
(The source's additional `isNaN` rejection cannot fire in exact real
arithmetic and is modelled as always passing.) -/
theorem deriveApy_spec (priceNow price7 : ℕ) :
    (price7 = 0 → deriveApy priceNow price7 = none)
    ∧ (0 < priceNow → 0 < price7 →
        ((0 ≤ apyFormula priceNow price7 ∧ apyFormula priceNow price7 ≤ 50000 →
            deriveApy priceNow price7 = some (apyFormula priceNow price7))
         ∧ (¬(0 ≤ apyFormula priceNow price7 ∧ apyFormula priceNow price7 ≤ 50000) →
            deriveApy priceNow price7 = none))) := by
  constructor
  · intro h7
    unfold deriveApy
    rw [if_neg]
    rintro ⟨h, -⟩
    omega
  · intro hn h7
    constructor
    · intro hband
      unfold deriveApy
      rw [if_pos ⟨h7, hn⟩, if_pos hband]
    · intro hband
      unfold deriveApy
      rw [if_pos ⟨h7, hn⟩, if_neg hband]

/-- Witness for C2: a zero historical price gives null, and equal unit
prices give the in-band formula value. -/
theorem deriveApy_spec_witness :
    deriveApy 1 0 = none ∧ deriveApy 1 1 = some (apyFormula 1 1) :=
  ⟨(deriveApy_spec 1 0).1 rfl,
   ((deriveApy_spec 1 1).2 one_pos one_pos).1
     (by rw [apyFormula_one_one]; norm_num)⟩

theorem deriveApy_one_one : deriveApy 1 1 = some 0 := by
  have hband : 0 ≤ apyFormula 1 1 ∧ apyFormula 1 1 ≤ 50000 := by
    rw [apyFormula_one_one]
    norm_num
  unfold deriveApy
  rw [if_pos ⟨one_pos, one_pos⟩, if_pos hband, apyFormula_one_one]

/-! ### Projection engine: claims C6 and C10 -/

/-- Counterexample to C6 as stated: for the strictly negative rate
`apyPercent = -36500` the guard `!apyPct` does not fire, so `calcYield`
returns the compound formula value `-100 ≠ 0` and `calcTotal` returns
`0 ≠ principal` (principal 100, one day). -/
theorem calc_negative_rate_cex :
    (-36500 : ℚ) < 0
    ∧ calcYield 100 (some (-36500)) 1 ≠ 0
    ∧ calcTotal 100 (some (-36500)) 1 ≠ 100 := by
  refine ⟨by norm_num, ?_, ?_⟩ <;> norm_num [calcYield, calcTotal]

/-- C6 amended: the projections return 0 / the unchanged principal exactly
when the rate is null or exactly zero (the JS falsy guard); for any nonzero
rate — including negative ones — they return the daily-compounding formula
values. -/
theorem calc_projection_formulas (principal a : ℚ) (days : ℕ) :
    calcYield principal none days = 0
    ∧ calcTotal principal none days = principal
    ∧ calcYield principal (some 0) days = 0
    ∧ calcTotal principal (some 0) days = principal
    ∧ (a ≠ 0 →
        calcYield principal (some a) days
          = principal * ((1 + a / 100 / 365) ^ days - 1)
        ∧ calcTotal principal (some a) days
          = principal * (1 + a / 100 / 365) ^ days) :=
  ⟨rfl, rfl, by simp [calcYield], by simp [calcTotal],
   fun ha => ⟨by simp [calcYield, ha], by simp [calcTotal, ha]⟩⟩

/-- Witness for C6 (amended) at the spec's scenario inputs
(principal 10000, APY 5%, one year). -/
theorem calc_projection_formulas_witness :
    calcYield 10000 (some 5) 365 = 10000 * ((1 + 5 / 100 / 365) ^ 365 - 1)
    ∧ calcTotal 10000 (some 5) 365 = 10000 * (1 + 5 / 100 / 365) ^ 365 :=
  (calc_projection_formulas 10000 5 365).2.2.2.2 (by norm_num)

/-- C10: for every principal, rate (null, zero, positive or negative) and
horizon, the two projections agree: total value is exactly principal plus
earned yield. -/
theorem calcTotal_eq_principal_add_calcYield (principal : ℚ) (a : Option ℚ) (days : ℕ) :
    calcTotal principal a days = principal + calcYield principal a days := by
  cases a with
  | none => simp [calcYield, calcTotal]
  | some x =>
      by_cases hx : x = 0
      · simp [calcYield, calcTotal, hx]
      · simp only [calcYield, calcTotal, if_neg hx]
        ring

/-! ### Historical block resolver: claim C7 -/

theorem jsRound_blocks (days : ℕ) :
    jsRound ((days * 86400 : ℚ) / 12) = 7200 * days := by
  unfold jsRound
  have hq : ((days : ℚ) * 86400) / 12 = ((7200 * days : ℤ) : ℚ) := by
    push_cast
    ring
  rw [hq, Int.floor_int_add]
  norm_num

/-- Counterexample to C7 as stated: when the primary lookup fails AND the
`eth_blockNumber` RPC read of the fallback also rejects, the fallback path
does fail the overall `getBlockDaysAgo` call (the RPC read sits outside
the `try`/`catch`), so the call is not failure-free. -/
theorem getBlockDaysAgo_fallback_cex :
    getBlockDaysAgo 7
      { primary := .error "explorer down", rpcBlockNumber := .error "rpc down" }
      = .error "rpc down" := rfl

/-- C7 amended: whenever the primary explorer lookup fails to fetch/parse
or returns a non-success status, `getBlockDaysAgo` takes the fallback
branch; if the RPC current-block read succeeds it returns
`max(0, currentBlock - round(days*86400/12))` (and that rounded count is
exactly `7200·days`), but if the RPC read itself rejects the error
propagates out of `getBlockDaysAgo` (to be swallowed by the caller's APY
guard). -/
theorem getBlockDaysAgo_fallback (days : ℕ) (env : BlockEnv)
    (h : primaryUnavailable env) :
    getBlockDaysAgo days env = fallbackBlock days env
    ∧ (∀ cur, env.rpcBlockNumber = .ok cur →
        getBlockDaysAgo days env
          = .ok (max 0 ((hexValue cur : ℤ) - jsRound ((days * 86400 : ℚ) / 12))))
    ∧ (∀ e, env.rpcBlockNumber = .error e → getBlockDaysAgo days env = .error e)
    ∧ jsRound ((days * 86400 : ℚ) / 12) = 7200 * days := by
  have hfall : getBlockDaysAgo days env = fallbackBlock days env := by
    unfold getBlockDaysAgo
    unfold primaryUnavailable at h
    cases hp : env.primary with
    | ok r =>
        rw [hp] at h
        have h2 : r.status ≠ "1" := h
        simp [h2]
    | error e => rfl
  refine ⟨hfall, ?_, ?_, jsRound_blocks days⟩
  · intro cur hcur
    rw [hfall]
    unfold fallbackBlock
    rw [hcur]
  · intro e he
    rw [hfall]
    unfold fallbackBlock
    rw [he]

/-- Witness for C7 (amended): explorer replies with a non-success status,
the RPC read delivers current block 1, and the call resolves to the
estimate. -/
theorem getBlockDaysAgo_fallback_witness :
    getBlockDaysAgo 7
      { primary := .ok { status := "0", result := 123 }, rpcBlockNumber := .ok [1] }
      = .ok (max 0 ((hexValue [1] : ℤ) - jsRound ((7 * 86400 : ℚ) / 12))) :=
  (getBlockDaysAgo_fallback 7
      { primary := .ok { status := "0", result := 123 }, rpcBlockNumber := .ok [1] }
      (show ("0" : String) ≠ "1" by decide)).2.1 [1] rfl

/-! ### Vault snapshot fetcher: claims C1 and C4 -/

/-- Counterexample to C1 as stated: the WeWETH descriptor carries
`institutional = true`, yet with every on-chain call succeeding and both
decoded share prices strictly positive (= 1), `fetchSingleVault` computes
an APY (here `some 0`) instead of reporting it unavailable — the flags are
never consulted. -/
theorem fetchSingleVault_flag_gating_cex :
    wewethConfig.institutional = true
    ∧ (fetchSingleVault wewethConfig allOkEnv).map VaultSnapshot.apy
        = .ok (some (0 : ℝ))
    ∧ (Except.ok (some (0 : ℝ)) : Except String (Option ℝ)) ≠ .ok none := by
  refine ⟨rfl, ?_, by simp⟩
  rw [← deriveApy_one_one]
  rfl

/-- C1 amended: `fetchSingleVault` applies no institutional/pending gating
at all — the APY it reports is identical for any setting of the two flags,
so a flagged vault whose calls succeed with positive prices receives the
same computed APY as an unflagged one (null only when the derivation
itself fails, a price is non-positive, or the value is out of band). -/
theorem fetchSingleVault_flags_irrelevant (c : VaultConfig) (env : FetchEnv)
    (i1 p1 i2 p2 : Bool) :
    (fetchSingleVault (setFlags c i1 p1) env).map VaultSnapshot.apy
      = (fetchSingleVault (setFlags c i2 p2) env).map VaultSnapshot.apy := by
  unfold fetchSingleVault
  cases env.totalAssetsRes <;> cases env.totalSupplyRes <;>
    cases env.priceNowRes <;> rfl

/-- C4: `fetchSingleVault` rejects exactly when one of the three parallel
current-state calls rejects; when they all succeed but the APY derivation
(block resolution, historical read, decode) fails, the exception is caught
locally and the snapshot still comes back complete with `apy = null` and
`live = true`. -/
theorem fetchSingleVault_failure_contract (cfg : VaultConfig) (env : FetchEnv) :
    (exOk (fetchSingleVault cfg env) = true
      ↔ exOk env.totalAssetsRes = true ∧ exOk env.totalSupplyRes = true
        ∧ exOk env.priceNowRes = true)
    ∧ (exOk (apySub env) = false →
        ∀ s, fetchSingleVault cfg env = .ok s → s.apy = none ∧ s.live = true) := by
  constructor
  · unfold fetchSingleVault
    cases env.totalAssetsRes <;> cases env.totalSupplyRes <;>
      cases env.priceNowRes <;> simp [exOk]
  · intro hsub s hs
    unfold fetchSingleVault at hs
    cases h1 : env.totalAssetsRes <;> rw [h1] at hs <;>
      cases h2 : env.totalSupplyRes <;> try rw [h2] at hs
    all_goals cases h3 : env.priceNowRes <;> try rw [h3] at hs
    all_goals simp only [] at hs
    all_goals try exact Except.noConfusion hs
    rw [Except.ok.injEq] at hs
    subst hs
    cases happ : apySub env with
    | ok v =>
        rw [happ] at hsub
        simp [exOk] at hsub
    | error e => exact ⟨rfl, rfl⟩

/-- Witness for C4: all three current-state calls succeed but both block
lookups reject, so the snapshot comes back fulfilled with a null APY and
`live = true`. -/
theorem fetchSingleVault_failure_contract_witness :
    (fetchSingleVault usdtConfig apyFailEnv).map VaultSnapshot.apy = .ok none
    ∧ (fetchSingleVault usdtConfig apyFailEnv).map VaultSnapshot.live = .ok true := by
  have h := fetchSingleVault_failure_contract usdtConfig apyFailEnv
  have hOk : exOk (fetchSingleVault usdtConfig apyFailEnv) = true :=
    h.1.mpr ⟨rfl, rfl, rfl⟩
  cases hE : fetchSingleVault usdtConfig apyFailEnv with
  | error e =>
      rw [hE] at hOk
      simp [exOk] at hOk
  | ok s =>
      have hs := h.2 rfl s hE
      simp [Except.map, hs.1, hs.2]

/-! ### Orchestrator: claims C5 and C8 -/

theorem get?_zipWith {α β γ : Type} (f : α → β → γ) :
    ∀ (l1 : List α) (l2 : List β) (i : ℕ),
      (List.zipWith f l1 l2).get? i
        = match l1.get? i, l2.get? i with
          | some a, some b => some (f a b)
          | _, _ => none := by
  intro l1
  induction l1 with
  | nil =>
      intro l2 i
      cases l2 <;> cases i <;> rfl
  | cons a t ih =>
      intro l2 i
      cases l2 with
      | nil => cases i <;> simp
      | cons b t2 =>
          cases i with
          | zero => rfl
          | succ n => exact ih t2 n

/-- Counterexample to C5 as stated: the app's degraded snapshot carries no
`fetchError` field at all — with all four configured vault fetches
rejecting with message "down", the snapshot at index 1 is the WeWETH
descriptor's degraded snapshot whose `fetchError` is `none`, not the
captured message. -/
theorem fetchAll_no_fetchError_cex :
    (fetchAllAggregate VAULT_CONFIGS
        [.error "down", .error "down", .error "down", .error "down"]).1.get? 1
      = some (degradedSnapshot wewethConfig)
    ∧ (degradedSnapshot wewethConfig).fetchError = none
    ∧ (none : Option String) ≠ some "down" := by
  refine ⟨?_, rfl, by simp⟩
  show (List.zipWith settleVault _ _).get? 1 = _
  rfl

/-- C5 amended: in the batch aggregation, every rejected index yields the
degraded snapshot built from the descriptor at that index (null APY, the
"Fetch failed" TVL text, `live = false`); the captured message is only
logged, not attached (the snapshot has no `fetchError`). The reported
error state is total outage iff every outcome rejected, partial outage
(carrying the count) iff some but not all rejected, and no error iff none
rejected. -/
theorem fetchAll_failure_aggregation (configs : List VaultConfig)
    (outcomes : List (Except String VaultSnapshot))
    (hlen : outcomes.length = configs.length) (hpos : 0 < configs.length) :
    (∀ i c msg, configs.get? i = some c → outcomes.get? i = some (.error msg) →
        (fetchAllAggregate configs outcomes).1.get? i = some (degradedSnapshot c))
    ∧ (∀ c, (degradedSnapshot c).apy = none
        ∧ (degradedSnapshot c).tvl = some "Fetch failed"
        ∧ (degradedSnapshot c).live = false
        ∧ (degradedSnapshot c).fetchError = none
        ∧ (degradedSnapshot c).config = c)
    ∧ (fetchAllAggregate configs outcomes).2
        = outageMessage (classifyOutage configs.length (rejectedCount outcomes))
    ∧ (classifyOutage configs.length (rejectedCount outcomes) = .allFailed
        ↔ rejectedCount outcomes = configs.length)
    ∧ (classifyOutage configs.length (rejectedCount outcomes)
          = .someFailed (rejectedCount outcomes)
        ↔ 0 < rejectedCount outcomes ∧ rejectedCount outcomes < configs.length)
    ∧ ((fetchAllAggregate configs outcomes).2 = none
        ↔ rejectedCount outcomes = 0) := by
  have hFN : rejectedCount outcomes ≤ configs.length := by
    calc rejectedCount outcomes ≤ outcomes.length := List.length_filter_le _ _
    _ = configs.length := hlen
  refine ⟨?_, fun c => ⟨rfl, rfl, rfl, rfl, rfl⟩, rfl, ?_, ?_, ?_⟩
  · intro i c msg hc ho
    show (List.zipWith settleVault configs outcomes).get? i = _
    rw [get?_zipWith, hc, ho]
    rfl
  · unfold classifyOutage
    split_ifs with h1 h2
    · simp [h1]
    · constructor
      · intro hcl
        exact absurd hcl (by simp)
      · intro hcl
        exact absurd hcl h1
    · constructor
      · intro hcl
        exact absurd hcl (by simp)
      · intro hcl
        exact absurd hcl h1
  · unfold classifyOutage
    split_ifs with h1 h2
    · constructor
      · intro hcl
        exact hcl.elim
      · rintro ⟨-, hlt⟩
        omega
    · exact ⟨fun _ => ⟨h2, lt_of_le_of_ne hFN h1⟩, fun _ => rfl⟩
    · constructor
      · intro hcl
        exact absurd hcl (by simp)
      · rintro ⟨h0, -⟩
        exact absurd h0 h2
  · show outageMessage (classifyOutage _ _) = none ↔ _
    unfold classifyOutage
    split_ifs with h1 h2
    · constructor
      · intro hcl
        exact absurd hcl (by simp [outageMessage])
      · intro h0
        omega
    · constructor
      · intro hcl
        exact absurd hcl (by simp [outageMessage])
      · intro hz
        omega
    · have hz : rejectedCount outcomes = 0 := by omega
      simp [outageMessage, hz]

/-- Witness for C5: all four configured vault fetches reject with
"down" — index 1 degrades to the WeWETH descriptor's degraded snapshot and
the classification is total outage. -/
theorem fetchAll_failure_aggregation_witness :
    (fetchAllAggregate VAULT_CONFIGS
        [.error "down", .error "down", .error "down", .error "down"]).1.get? 1
      = some (degradedSnapshot wewethConfig)
    ∧ classifyOutage VAULT_CONFIGS.length
        (rejectedCount [.error "down", .error "down", .error "down", .error "down"])
      = .allFailed := by
  have h := fetchAll_failure_aggregation VAULT_CONFIGS
    [.error "down", .error "down", .error "down", .error "down"] rfl (by decide)
  exact ⟨h.1 1 wewethConfig "down" rfl rfl, h.2.2.2.1.mpr rfl⟩

theorem get?_set {α : Type} (l : List α) (j : ℕ) (a : α) :
    ∀ i, (l.set j a).get? i
      = if i = j ∧ j < l.length then some a else l.get? i := by
  induction l generalizing j with
  | nil => intro i; simp
  | cons x t ih =>
      intro i
      cases j with
      | zero =>
          cases i with
          | zero => simp
          | succ n => simp
      | succ m =>
          cases i with
          | zero => simp
          | succ n =>
              simp only [List.set, List.get?, ih m n, List.length_cons]
              by_cases hnm : n = m <;> simp [hnm]

theorem foldl_set_get? (results : ℕ → Except String VaultSnapshot) :
    ∀ (order : List ℕ) (acc : List (Option (Except String VaultSnapshot))) (i : ℕ),
      (order.foldl (fun a j => a.set j (some (results j))) acc).get? i
        = if i ∈ order ∧ i < acc.length then some (some (results i))
          else acc.get? i := by
  intro order
  induction order with
  | nil =>
      intro acc i
      simp
  | cons j tl ih =>
      intro acc i
      rw [List.foldl_cons, ih, List.length_set, get?_set]
      by_cases hij : i = j
      · subst hij
        by_cases hl : i < acc.length <;> by_cases hm : i ∈ tl <;>
          simp [hl, hm, List.mem_cons]
      · by_cases hl : i < acc.length <;> by_cases hm : i ∈ tl <;>
          simp [hl, hm, hij, List.mem_cons]

/-- C8: whatever the completion order of the per-vault fetches (any
permutation of the indices), the snapshot list `fetchAll` returns is
index-aligned with the input: position `i` holds the settled snapshot
derived from descriptor `i` and outcome `i`. -/
theorem fetchAll_order_preservation (configs : List VaultConfig)
    (results : ℕ → Except String VaultSnapshot) (order : List ℕ)
    (hperm : order.Perm (List.range configs.length)) :
    ∀ i c, configs.get? i = some c →
      (fetchAllOrdered configs results order).get? i
        = some (settleVault c (results i)) := by
  intro i c hc
  have hi : i < configs.length := by
    rcases List.get?_eq_some.mp hc with ⟨hlt, -⟩
    exact hlt
  have hcol : (allSettledInOrder configs.length results order).get? i
      = some (some (results i)) := by
    unfold allSettledInOrder
    rw [foldl_set_get?]
    simp [hperm.mem_iff, List.mem_range, hi]
  show (List.zipWith settleVault configs
      ((allSettledInOrder configs.length results order).map
        (fun o => o.getD (.error "")))).get? i = _
  rw [get?_zipWith, hc, List.get?_map, hcol]
  rfl

/-- Witness for C8: three descriptors finishing in order `C, A, B`
(completion order `[2, 0, 1]`) still produce the index-aligned result. -/
theorem fetchAll_order_preservation_witness :
    (fetchAllOrdered (VAULT_CONFIGS.take 3) (fun i => .error (toString i))
        [2, 0, 1]).get? 0
      = some (settleVault usdtConfig (.error (toString 0)))
    ∧ (fetchAllOrdered (VAULT_CONFIGS.take 3) (fun i => .error (toString i))
        [2, 0, 1]).get? 2
      = some (settleVault wbtcConfig (.error (toString 2))) := by
  have h := fetchAll_order_preservation (VAULT_CONFIGS.take 3)
    (fun i => .error (toString i)) [2, 0, 1] (by decide)
  exact ⟨h 0 usdtConfig rfl, h 2 wbtcConfig rfl⟩

end ConcreteYield
